import Mathlib

/-!
Verification of the typesafe IPC layer of the desktop client
(src/shared/lib/ipc/main.ts, src/shared/lib/ipc/renderer.ts) and of the
single-flight backend-server manager (NeovateServerManager).

The TypeScript code is embedded shallowly: JavaScript values carried over
the wire become the inductive `Val`; a handler that may return or throw
becomes an `Outcome`; the Electron substrate primitives (`ipcMain.handle`,
`contents.send`, `ipcMain.once`, `ipcRenderer.on/send`) become explicit
message logs and lookup tables.  Each definition mirrors one function of
the source, keeping its name where Lean allows it.
-/

namespace IpcSpec

/-- A wire-carried JavaScript value (payloads are plain structured data;
the scalar cases suffice for the properties verified here). -/
inductive Val where
  | undefined
  | null
  | bool (b : Bool)
  | num (n : Int)
  | str (s : String)
  deriving DecidableEq, Repr

/-- JavaScript truthiness of a `Val`, as tested by `if (error)` in
`getRendererCaller`'s reply listener. -/
def truthy : Val → Bool
  | .undefined => false
  | .null => false
  | .bool b => b
  | .num n => n != 0
  | .str s => s != ""

/-- The outcome of running a JS handler: it returns a value or throws
(synchronously or by rejecting its promise). -/
inductive Outcome where
  | ok (v : Val)
  | err (e : Val)
  deriving DecidableEq, Repr

/-! ## Channel addressing

Each call site of the source computes its channel string inline
(`` `${namespace}.${method}` `` plus a `send:`/`invoke:` prefix for
host-initiated traffic).  One definition per call site. -/

/-- Channel string computed in `registerMainHandlers` (main.ts). -/
def mainRegisterChannel (ns m : String) : String := ns ++ "." ++ m

/-- Channel string computed in the method proxy of `getRendererCaller`
(main.ts). -/
def rendererCallerChannel (ns m : String) : String := ns ++ "." ++ m

/-- Fire-and-forget address used by `getRendererCaller`'s `send`
(main.ts). -/
def hostSendAddress (ns m : String) : String :=
  "send:" ++ rendererCallerChannel ns m

/-- Request/response address used by `getRendererCaller`'s `invoke`
(main.ts). -/
def hostInvokeAddress (ns m : String) : String :=
  "invoke:" ++ rendererCallerChannel ns m

/-- Channel string computed in the method proxy of `createMainCaller`
(renderer.ts). -/
def mainCallerChannel (ns m : String) : String := ns ++ "." ++ m

/-- Channel string computed in the method proxy of `createRendererHandler`
(renderer.ts). -/
def rendererHandlerChannel (ns m : String) : String := ns ++ "." ++ m

/-- Address bound by `createRendererHandler`'s `listen` (renderer.ts). -/
def clientListenAddress (ns m : String) : String :=
  "send:" ++ rendererHandlerChannel ns m

/-- Address bound by `createRendererHandler`'s `handle` (renderer.ts). -/
def clientHandleAddress (ns m : String) : String :=
  "invoke:" ++ rendererHandlerChannel ns m

/-- A message written to the duplex substrate: a channel name and the
positional argument list. -/
structure Msg where
  channel : String
  payload : List Val
  deriving DecidableEq, Repr

/-! ## Host dispatch table (registerMainHandlers, main.ts) -/

/-- The Electron event handed to a main-process handler; only its
`sender` (the originating `WebContents`, identified by id) is used. -/
structure IpcMainEvent where
  sender : Nat
  deriving DecidableEq, Repr

/-- The `context` object built by `registerMainHandlers`:
`{ sender: e.sender }`. -/
structure Context where
  sender : Nat
  deriving DecidableEq, Repr

/-- The single argument passed to a main handler:
`{ context, input }`. -/
structure HandlerArg where
  context : Context
  input : Val
  deriving DecidableEq, Repr

/-- A main-process procedure as wrapped by `createMainHandler`: the record
`{ handler: fn }`. -/
structure MainHandler where
  handler : HandlerArg → Outcome

/-- `createMainHandler` (main.ts): wraps a function into a handler
record. -/
def createMainHandler (fn : HandlerArg → Outcome) : MainHandler :=
  { handler := fn }

/-- A handler table: namespace entries, each a list of method entries
(the object-literal structure walked by `Object.entries`). -/
abbrev MainHandlers : Type :=
  List (String × List (String × MainHandler))

/-- The function bound by `ipcMain.handle` for one channel: it receives
the Electron event and the payload. -/
abbrev BoundHandler : Type :=
  IpcMainEvent → Val → Outcome

/-- `registerMainHandlers` (main.ts): walks every `(namespace, method)`
entry and binds channel `namespace.method` to
`(e, payload) ↦ handler { context := { sender := e.sender }, input := payload }`.
The result is the table `ipcMain` ends up with: channel name to bound
handler. -/
def registerMainHandlers (mainHandlers : MainHandlers) :
    List (String × BoundHandler) :=
  mainHandlers.flatMap fun nsEntry =>
    nsEntry.2.map fun mEntry =>
      (mainRegisterChannel nsEntry.1 mEntry.1,
       fun e payload =>
         mEntry.2.handler ⟨⟨e.sender⟩, payload⟩)

/-- Dispatch of an inbound request by `ipcMain`: the handler bound to the
request's channel, and only that handler, is applied to the event and the
payload. -/
def ipcMainDispatch (table : List (String × BoundHandler))
    (channel : String) (e : IpcMainEvent) (payload : Val) : Option Outcome :=
  (table.lookup channel).map fun h => h e payload

/-- Helper: in an association list with pairwise-distinct keys, `lookup`
finds exactly the stored value of a present pair. -/
theorem lookup_of_mem_of_nodup {β : Type} (l : List (String × β))
    (k : String) (v : β) (hnd : (l.map Prod.fst).Nodup)
    (hmem : (k, v) ∈ l) : l.lookup k = some v := by
  induction l with
  | nil => cases hmem
  | cons hd tl ih =>
    simp only [List.map_cons, List.nodup_cons] at hnd
    rcases List.mem_cons.mp hmem with heq | hmem2
    · subst heq
      simp [List.lookup]
    · have hk : k ≠ hd.1 := by
        intro h
        exact hnd.1 (h ▸ List.mem_map_of_mem Prod.fst hmem2)
      have hbeq : (k == hd.1) = false := beq_false_of_ne hk
      simp only [List.lookup, hbeq]
      exact ih hnd.2 hmem2

/-! ## Host-to-Client caller (getRendererCaller, main.ts) -/

/-- How a Host `invoke` future settles once its reply arrives. -/
inductive InvokeResult where
  | resolved (v : Val)
  | rejected (e : Val)
  deriving DecidableEq, Repr

/-- Whether an `InvokeResult` is a rejection. -/
def InvokeResult.isRejected : InvokeResult → Bool
  | .resolved _ => false
  | .rejected _ => true

/-- The response envelope written by the Client side: the object literal
`{ result }` or `{ error }` — by construction one field, never both. -/
inductive Envelope where
  | resultEnv (v : Val)
  | errorEnv (e : Val)
  deriving DecidableEq, Repr

/-- The `error` field read by the destructuring
`(_, { error, result })` on the Host side; absent fields read as
`undefined`. -/
def Envelope.errField : Envelope → Val
  | .resultEnv _ => .undefined
  | .errorEnv e => e

/-- The `result` field read by the destructuring
`(_, { error, result })` on the Host side; absent fields read as
`undefined`. -/
def Envelope.resField : Envelope → Val
  | .resultEnv v => v
  | .errorEnv _ => .undefined

/-- The body of the one-shot reply listener registered by `invoke`
(main.ts): `if (error) reject(error) else resolve(result)`. -/
def settleWaiter (env : Envelope) : InvokeResult :=
  if truthy env.errField then .rejected env.errField
  else .resolved env.resField

/-- Host-side state touched by `invoke`: the tokens with a registered
one-shot waiter (`ipcMain.once(id, ...)`) and the log of messages written
to the renderer (`contents.send`). -/
structure HostState where
  waiters : List String
  sent : List Msg
  deriving DecidableEq, Repr

/-- The host state before any call. -/
def initialHost : HostState := ⟨[], []⟩

/-- One `invoke(...args)` call of `getRendererCaller` (main.ts) with the
correlation token `crypto.randomUUID()` returned as `t`: it registers a
one-shot waiter keyed by `t` and writes `(t, ...args)` to
`invoke:namespace.method`. -/
def runInvoke (ns m : String) (args : List Val) (t : String)
    (s : HostState) : HostState :=
  { waiters := s.waiters ++ [t],
    sent := s.sent ++ [⟨hostInvokeAddress ns m, Val.str t :: args⟩] }

/-- One Host-to-Client `invoke` call: channel pair, arguments and the
token minted for it. -/
structure InvokeCall where
  ns : String
  m : String
  args : List Val
  token : String
  deriving DecidableEq, Repr

/-- A batch of concurrent `invoke` calls issued in sequence on the
dispatch loop's turn. -/
def runInvokes (calls : List InvokeCall) (s : HostState) : HostState :=
  calls.foldl (fun st c => runInvoke c.ns c.m c.args c.token st) s

/-- Delivery of a response envelope on a token's reply channel: if a
waiter is registered for the token it is consumed (one-shot) and the
future settles per `settleWaiter`; otherwise nothing settles. -/
def deliverReply (s : HostState) (t : String) (env : Envelope) :
    HostState × Option InvokeResult :=
  if t ∈ s.waiters then
    ({ s with waiters := s.waiters.erase t }, some (settleWaiter env))
  else (s, none)

/-! ## Client dispatch table (createRendererHandler, renderer.ts) -/

/-- The Electron event handed to a renderer-side listener; stripped
before the user callback runs. -/
structure IpcRendererEvent where
  senderId : Nat
  deriving DecidableEq, Repr

/-- The wrapper bound by `handle` on `invoke:namespace.method`
(renderer.ts): on an inbound `(id, ...args)` it runs `handler(...args)`
and sends exactly one `{ result }` or `{ error }` envelope back on
channel `id`.  The returned list is the list of `send(id, envelope)`
calls it performs. -/
def handleRaw (handler : List Val → Outcome) (_e : IpcRendererEvent)
    (args : List Val) : List (String × Envelope) :=
  match args with
  | Val.str id :: rest =>
      match handler rest with
      | .ok v => [(id, .resultEnv v)]
      | .err er => [(id, .errorEnv er)]
  | _ => []

/-- The envelope `handle` sends for a given handler outcome: `{ result }`
on completion, `{ error }` on failure. -/
def mkEnvelope : Outcome → Envelope
  | .ok v => .resultEnv v
  | .err er => .errorEnv er

/-- The wrapper bound by `listen` on `send:namespace.method`
(renderer.ts): `(_, ...args) => handler(...args)` — the substrate event
is stripped and the user callback receives exactly the positional
arguments. -/
def listenRaw {α : Type} (handler : List Val → α) (_e : IpcRendererEvent)
    (args : List Val) : α :=
  handler args

/-- A `listen` registration of `createRendererHandler`: the channel it
binds and the raw listener the substrate will run. -/
def clientListen {α : Type} (ns m : String) (handler : List Val → α) :
    String × (IpcRendererEvent → List Val → α) :=
  (clientListenAddress ns m, listenRaw handler)

/-- Delivery of a substrate message to one registration: the raw
listener runs exactly when the message's channel matches the bound
channel. -/
def deliverToListener {α : Type}
    (reg : String × (IpcRendererEvent → List Val → α))
    (e : IpcRendererEvent) (msg : Msg) : Option α :=
  if msg.channel = reg.1 then some (reg.2 e msg.payload) else none

/-- The renderer-side `WebContents` as seen from the main process: the
log of messages `contents.send` has written to it. -/
structure WebContents where
  sentLog : List Msg
  deriving DecidableEq, Repr

/-- Electron's `contents.send(channel, ...args)`: appends the message to
the wire and returns `undefined`; it never consults the renderer's
listener registry and never surfaces an error to the caller. -/
def contentsSend (c : WebContents) (channel : String) (args : List Val) :
    WebContents × Unit :=
  ({ sentLog := c.sentLog ++ [⟨channel, args⟩] }, ())

/-- The `send(...args)` operation of `getRendererCaller` (main.ts):
`contents.send("send:" ++ channelName, ...args)`. -/
def rendererCallerSend (ns m : String) (args : List Val)
    (c : WebContents) : WebContents × Unit :=
  contentsSend c (hostSendAddress ns m) args

/-- One Host `send` followed by the renderer-side delivery attempt
against an arbitrary listener registry: the pair of (host-side result,
listener runs that fired).  The host-side result is computed before — and
independently of — any delivery. -/
def sendRound {α : Type} (ns m : String) (args : List Val)
    (c : WebContents)
    (regs : List (String × (IpcRendererEvent → List Val → α)))
    (e : IpcRendererEvent) : (WebContents × Unit) × List α :=
  (rendererCallerSend ns m args c,
   regs.filterMap fun r => deliverToListener r e ⟨hostSendAddress ns m, args⟩)

/-! ## Client-to-Host caller (createMainCaller, renderer.ts) -/

/-- The callable produced for `(namespace, method)` by `createMainCaller`
(renderer.ts): `(input) => ipcInvoke(channelName, input)` — the one input
value is forwarded to the substrate's native request/response primitive
and its future is returned unchanged. -/
def createMainCallerMethod {F : Type} (ipcInvoke : String → Val → F)
    (ns m : String) : Val → F :=
  fun input => ipcInvoke (mainCallerChannel ns m) input

/-- A full Host→Client→Host round trip for one `invoke` call: the Host
registers the waiter and sends `(t, args)` on `invoke:ns.m`; the Client
`handle` wrapper for that channel processes the payload and replies; the
reply is delivered back on the token's channel.  Returns the settlement
of the Host future (`none` if the exchange produced no settlement). -/
def roundTrip (handler : List Val → Outcome) (ns m : String)
    (args : List Val) (t : String) : Option InvokeResult :=
  let s1 := runInvoke ns m args t initialHost
  match handleRaw handler ⟨0⟩ (Val.str t :: args) with
  | [(tok, env)] => (deliverReply s1 tok env).2
  | _ => none

/-! ## Backend-server manager (NeovateServerManager, src/main/server) -/

/-- A created backend server instance (only its `url` matters here). -/
structure ServerInstance where
  url : String
  deriving DecidableEq, Repr

/-- The manager's mutable fields: `instance` and `creationPromise`
(promises identified by a numeric id). -/
structure ManagerState where
  inst : Option ServerInstance
  creationPromise : Option Nat
  deriving DecidableEq, Repr

/-- What a `getOrCreate` call hands back to its caller: the cached
instance, or a shared in-flight creation promise to await. -/
inductive GetOrCreateOutcome where
  | cached (v : ServerInstance)
  | awaitPromise (p : Nat)
  deriving DecidableEq, Repr

/-- `NeovateServerManager.getOrCreate`, given the promise id a fresh
`createNeovateServer()` call would produce: return the existing instance
if set; else return the in-progress creation promise if set; else start
a new creation, store its promise and return it.  The `Bool` records
whether `createNeovateServer` was invoked by this call. -/
def getOrCreate (fresh : Nat) (s : ManagerState) :
    GetOrCreateOutcome × ManagerState × Bool :=
  match s.inst with
  | some v => (.cached v, s, false)
  | none =>
    match s.creationPromise with
    | some p => (.awaitPromise p, s, false)
    | none =>
      (.awaitPromise fresh, { inst := none, creationPromise := some fresh }, true)

/-- The `.then` continuation of the creation promise: store the instance
and clear the promise (the shared promise then resolves with the
instance). -/
def creationSucceeded (v : ServerInstance) (s : ManagerState) : ManagerState :=
  { s with inst := some v, creationPromise := none }

/-- The `.catch` continuation of the creation promise: clear the promise
so a retry can work (the shared promise then rejects). -/
def creationFailed (s : ManagerState) : ManagerState :=
  { s with creationPromise := none }

end IpcSpec

namespace IpcSpec

/-- C5: for every namespace `ns` and method `m`, the wire channel strings
are exactly `ns.m` for Client-to-Host request/response traffic,
`send:ns.m` for Host-to-Client fire-and-forget traffic and `invoke:ns.m`
for Host-to-Client request init, and the registering side and the calling
side of each direction compute identical strings. -/
theorem channel_addresses_agree (ns m : String) :
    mainRegisterChannel ns m = ns ++ "." ++ m ∧
    mainCallerChannel ns m = mainRegisterChannel ns m ∧
    hostSendAddress ns m = "send:" ++ (ns ++ "." ++ m) ∧
    clientListenAddress ns m = hostSendAddress ns m ∧
    hostInvokeAddress ns m = "invoke:" ++ (ns ++ "." ++ m) ∧
    clientHandleAddress ns m = hostInvokeAddress ns m := by
  refine ⟨rfl, rfl, rfl, rfl, rfl, rfl⟩

/-- C1: for every handler table registered via `registerMainHandlers`
whose resulting channel names are pairwise distinct, and for every
`(namespace, method, procedure)` entry in it, the channel
`namespace.method` is bound to exactly that procedure (wrapped to receive
`{ context := { sender := e.sender }, input := payload }`), and
dispatching an inbound request on that channel returns exactly the value
that procedure returns (or its failure) on that argument; no other
registered procedure takes part, since dispatch applies only the handler
looked up for the channel. -/
theorem registerMainHandlers_routes (mainHandlers : MainHandlers)
    (nsEntry : String × List (String × MainHandler))
    (mEntry : String × MainHandler)
    (e : IpcMainEvent) (payload : Val)
    (hns : nsEntry ∈ mainHandlers) (hm : mEntry ∈ nsEntry.2)
    (hnd : ((registerMainHandlers mainHandlers).map Prod.fst).Nodup) :
    (registerMainHandlers mainHandlers).lookup
        (mainRegisterChannel nsEntry.1 mEntry.1) =
      some (fun ev p => mEntry.2.handler ⟨⟨ev.sender⟩, p⟩) ∧
    ipcMainDispatch (registerMainHandlers mainHandlers)
        (mainRegisterChannel nsEntry.1 mEntry.1) e payload =
      some (mEntry.2.handler ⟨⟨e.sender⟩, payload⟩) := by
  have hmem :
      (mainRegisterChannel nsEntry.1 mEntry.1,
        fun ev p => mEntry.2.handler ⟨⟨ev.sender⟩, p⟩) ∈
        registerMainHandlers mainHandlers := by
    unfold registerMainHandlers
    refine List.mem_flatMap.mpr ⟨nsEntry, hns, ?_⟩
    exact List.mem_map_of_mem _ hm
  have hlk := lookup_of_mem_of_nodup _ _ _ hnd hmem
  refine ⟨hlk, ?_⟩
  unfold ipcMainDispatch
  rw [hlk]
  rfl

/-- A concrete two-namespace handler table used to witness C1: the
`server.create` and `file.save` style layout of the application's
`ipcMainHandlers`. -/
def sampleHandlers : MainHandlers :=
  [("server",
    [("create", createMainHandler fun _ => .ok (.str "http://127.0.0.1:3000")),
     ("status", createMainHandler fun a => .ok (.num a.context.sender))]),
   ("file",
    [("save", createMainHandler fun a => .ok a.input)])]

/-- Witness for C1 at a concrete table: dispatching `file.save` with
payload `"hello"` from sender 7 runs exactly the `file.save` procedure
and returns its value. -/
theorem registerMainHandlers_routes_witness :
    (("file", [("save", createMainHandler fun a => .ok a.input)]) ∈
        sampleHandlers) ∧
    (("save", createMainHandler fun a => Outcome.ok a.input) ∈
        [("save", createMainHandler fun a => Outcome.ok a.input)]) ∧
    ((registerMainHandlers sampleHandlers).map Prod.fst).Nodup ∧
    ipcMainDispatch (registerMainHandlers sampleHandlers)
        (mainRegisterChannel "file" "save") ⟨7⟩ (.str "hello") =
      some ((createMainHandler fun a => .ok a.input).handler
        ⟨⟨7⟩, .str "hello"⟩) := by
  have h1 : ("file", [("save", createMainHandler fun a => Outcome.ok a.input)]) ∈
      sampleHandlers :=
    List.Mem.tail _ (List.Mem.head _)
  have h2 : ("save", createMainHandler fun a => Outcome.ok a.input) ∈
      [("save", createMainHandler fun a => Outcome.ok a.input)] :=
    List.Mem.head _
  have h3 : ((registerMainHandlers sampleHandlers).map Prod.fst).Nodup := by
    decide
  exact ⟨h1, h2, h3,
    (registerMainHandlers_routes sampleHandlers
      ("file", [("save", createMainHandler fun a => Outcome.ok a.input)])
      ("save", createMainHandler fun a => Outcome.ok a.input)
      ⟨7⟩ (.str "hello") h1 h2 h3).2⟩

/-- Helper: running a batch of `invoke` calls appends their tokens, in
order, to the waiter registry. -/
theorem runInvokes_waiters (calls : List InvokeCall) (s : HostState) :
    (runInvokes calls s).waiters = s.waiters ++ calls.map InvokeCall.token := by
  induction calls generalizing s with
  | nil => simp [runInvokes]
  | cons c tl ih =>
    show (runInvokes tl (runInvoke c.ns c.m c.args c.token s)).waiters = _
    rw [ih]
    simp [runInvoke]

/-- Helper: running a batch of `invoke` calls appends, in order, one
`(token, ...args)` message on `invoke:ns.m` per call to the send log. -/
theorem runInvokes_sent (calls : List InvokeCall) (s : HostState) :
    (runInvokes calls s).sent = s.sent ++
      calls.map (fun k => ⟨hostInvokeAddress k.ns k.m, Val.str k.token :: k.args⟩) := by
  induction calls generalizing s with
  | nil => simp [runInvokes]
  | cons c tl ih =>
    show (runInvokes tl (runInvoke c.ns c.m c.args c.token s)).sent = _
    rw [ih]
    simp [runInvoke]

/-- C2: a batch of concurrent `invoke` calls with pairwise-distinct
tokens (the generator yields distinct values) registers one one-shot
waiter per token, writes exactly the tuple `(token, ...args)` to
`invoke:ns.m` for each call, and an envelope arriving on call `c`'s own
token channel settles exactly `c`'s future (with `settleWaiter` of that
envelope) while leaving every other call's waiter registered. -/
theorem invoke_correlation (calls : List InvokeCall)
    (c cOther : InvokeCall) (env : Envelope)
    (hc : c ∈ calls) (hcOther : cOther ∈ calls)
    (hnd : (calls.map InvokeCall.token).Nodup)
    (hne : cOther.token ≠ c.token) :
    (runInvokes calls initialHost).waiters = calls.map InvokeCall.token ∧
    (runInvokes calls initialHost).sent =
      calls.map (fun k => ⟨hostInvokeAddress k.ns k.m, Val.str k.token :: k.args⟩) ∧
    (deliverReply (runInvokes calls initialHost) c.token env).2 =
      some (settleWaiter env) ∧
    cOther.token ∈
      (deliverReply (runInvokes calls initialHost) c.token env).1.waiters := by
  have hw : (runInvokes calls initialHost).waiters = calls.map InvokeCall.token := by
    rw [runInvokes_waiters]
    simp [initialHost]
  have hmem : c.token ∈ (runInvokes calls initialHost).waiters := by
    rw [hw]
    exact List.mem_map_of_mem InvokeCall.token hc
  refine ⟨hw, ?_, ?_, ?_⟩
  · rw [runInvokes_sent]
    simp [initialHost]
  · simp [deliverReply, hmem]
  · simp only [deliverReply, hmem, if_pos]
    exact (List.mem_erase_of_ne hne).mpr
      (hw ▸ List.mem_map_of_mem InvokeCall.token hcOther)

/-- A concrete batch of two concurrent `invoke` calls used to witness
C2. -/
def sampleCalls : List InvokeCall :=
  [⟨"math", "add", [.num 5, .num 10], "tokA"⟩,
   ⟨"math", "double", [.num 21], "tokB"⟩]

/-- Witness for C2 at a concrete batch: two concurrent calls with tokens
`tokA` and `tokB`; a `{ result: 15 }` envelope on `tokA` settles the
first call's future with `resolved 15` and leaves `tokB`'s waiter
registered. -/
theorem invoke_correlation_witness :
    ((⟨"math", "add", [.num 5, .num 10], "tokA"⟩ : InvokeCall) ∈ sampleCalls) ∧
    ((⟨"math", "double", [.num 21], "tokB"⟩ : InvokeCall) ∈ sampleCalls) ∧
    (sampleCalls.map InvokeCall.token).Nodup ∧
    ("tokB" ≠ "tokA") ∧
    ((runInvokes sampleCalls initialHost).waiters =
        sampleCalls.map InvokeCall.token ∧
      (runInvokes sampleCalls initialHost).sent =
        sampleCalls.map
          (fun k => ⟨hostInvokeAddress k.ns k.m, Val.str k.token :: k.args⟩) ∧
      (deliverReply (runInvokes sampleCalls initialHost) "tokA"
          (.resultEnv (.num 15))).2 =
        some (settleWaiter (.resultEnv (.num 15))) ∧
      "tokB" ∈ (deliverReply (runInvokes sampleCalls initialHost) "tokA"
          (.resultEnv (.num 15))).1.waiters) := by
  have h1 : (⟨"math", "add", [.num 5, .num 10], "tokA"⟩ : InvokeCall) ∈
      sampleCalls := List.Mem.head _
  have h2 : (⟨"math", "double", [.num 21], "tokB"⟩ : InvokeCall) ∈
      sampleCalls := List.Mem.tail _ (List.Mem.head _)
  have h3 : (sampleCalls.map InvokeCall.token).Nodup := by decide
  have h4 : ("tokB" : String) ≠ "tokA" := by decide
  exact ⟨h1, h2, h3, h4,
    invoke_correlation sampleCalls
      ⟨"math", "add", [.num 5, .num 10], "tokA"⟩
      ⟨"math", "double", [.num 21], "tokB"⟩
      (.resultEnv (.num 15)) h1 h2 h3 h4⟩

/-- C4: for every inbound `(token, ...args)` message delivered to a
registered `handle` wrapper, exactly one response envelope is sent back,
it goes to the token's own reply channel, and it is `{ result }` when the
callback completes and `{ error }` when it fails — by construction an
envelope carries exactly one of the two fields, never both. -/
theorem handle_single_envelope (handler : List Val → Outcome)
    (e : IpcRendererEvent) (t : String) (rest : List Val) (v er : Val) :
    handleRaw handler e (Val.str t :: rest) = [(t, mkEnvelope (handler rest))] ∧
    (handleRaw handler e (Val.str t :: rest)).length = 1 ∧
    mkEnvelope (.ok v) = .resultEnv v ∧
    mkEnvelope (.err er) = .errorEnv er := by
  refine ⟨?_, ?_, rfl, rfl⟩ <;>
    cases h : handler rest <;> simp [handleRaw, mkEnvelope, h]

/-- C10: the Host `invoke` future rejects exactly when the delivered
envelope's `error` field is truthy; a handler failure carrying a falsy
error value (`null`, `0`, `false`, `""`) therefore resolves the future
with the envelope's absent `result` field (`undefined`) instead of
rejecting. -/
theorem reply_error_truthiness (env : Envelope) :
    (settleWaiter env).isRejected = truthy env.errField ∧
    settleWaiter env =
      (if truthy env.errField then InvokeResult.rejected env.errField
       else InvokeResult.resolved env.resField) ∧
    roundTrip (fun _ => .err .null) "demo" "fail" [] "t0" =
      some (.resolved .undefined) ∧
    roundTrip (fun _ => .err (.num 0)) "demo" "fail" [] "t0" =
      some (.resolved .undefined) ∧
    roundTrip (fun _ => .err (.bool false)) "demo" "fail" [] "t0" =
      some (.resolved .undefined) ∧
    roundTrip (fun _ => .err (.str "")) "demo" "fail" [] "t0" =
      some (.resolved .undefined) := by
  refine ⟨?_, rfl, ?_, ?_, ?_, ?_⟩
  · cases htr : truthy env.errField <;>
      simp [settleWaiter, InvokeResult.isRejected, htr]
  all_goals decide

/-- C3 (amended): a failing `handle` callback always sends `{ error: E }`
to the token's reply channel; when `E` is truthy the Host `invoke` future
rejects with exactly that value `E`, with no re-wrapping. -/
theorem handle_error_propagation (handler : List Val → Outcome)
    (ns m t : String) (args : List Val) (e : Val) (evt : IpcRendererEvent)
    (hfail : handler args = .err e) (htr : truthy e = true) :
    handleRaw handler evt (Val.str t :: args) = [(t, .errorEnv e)] ∧
    roundTrip handler ns m args t = some (.rejected e) := by
  have hr : handleRaw handler (⟨0⟩ : IpcRendererEvent) (Val.str t :: args) =
      [(t, .errorEnv e)] := by
    simp [handleRaw, hfail]
  refine ⟨by simp [handleRaw, hfail], ?_⟩
  simp [roundTrip, hr, deliverReply, runInvoke, initialHost,
    settleWaiter, Envelope.errField, Envelope.resField, htr]

/-- Witness for C3 (amended): a callback that throws `"boom"` sends
`{ error: "boom" }` on the token channel and makes the Host future
reject with `"boom"`. -/
theorem handle_error_propagation_witness :
    ((fun _ => Outcome.err (Val.str "boom")) ([] : List Val) =
        Outcome.err (Val.str "boom")) ∧
    truthy (Val.str "boom") = true ∧
    (handleRaw (fun _ => Outcome.err (Val.str "boom")) ⟨3⟩ [Val.str "tokC"] =
        [("tokC", Envelope.errorEnv (Val.str "boom"))] ∧
      roundTrip (fun _ => Outcome.err (Val.str "boom")) "math" "add" [] "tokC" =
        some (InvokeResult.rejected (Val.str "boom"))) :=
  ⟨rfl, by decide,
   handle_error_propagation (fun _ => Outcome.err (Val.str "boom"))
     "math" "add" "tokC" [] (Val.str "boom") ⟨3⟩ rfl (by decide)⟩

/-- Counterexample to C3 as stated: a callback that throws the (falsy)
value `false` does send `{ error: false }` to the token's reply channel,
but the Host `invoke` future then resolves with `undefined` — it does not
reject with the carried error value. -/
theorem handle_error_propagation_cex :
    handleRaw (fun _ => Outcome.err (Val.bool false)) ⟨0⟩ [Val.str "tokD"] =
      [("tokD", Envelope.errorEnv (Val.bool false))] ∧
    roundTrip (fun _ => Outcome.err (Val.bool false)) "math" "add" [] "tokD" =
      some (InvokeResult.resolved Val.undefined) ∧
    roundTrip (fun _ => Outcome.err (Val.bool false)) "math" "add" [] "tokD" ≠
      some (InvokeResult.rejected (Val.bool false)) := by
  refine ⟨rfl, by decide, by decide⟩

/-- C6: a Host-to-Client `send(...args)` writes `args` to the
fire-and-forget address `send:namespace.method`, returns synchronously
with no return value (`()`), and its host-side outcome is this same fixed
value for every renderer listener registry — including the empty one —
so no error ever reaches the caller. -/
theorem send_fire_and_forget {α : Type} (ns m : String) (args : List Val)
    (c : WebContents)
    (regs : List (String × (IpcRendererEvent → List Val → α)))
    (e : IpcRendererEvent) :
    (sendRound ns m args c regs e).1 =
      (⟨c.sentLog ++ [⟨hostSendAddress ns m, args⟩]⟩, ()) ∧
    (sendRound ns m args c regs e).1 =
      (sendRound ns m args c ([] : List (String × (IpcRendererEvent → List Val → α))) e).1 ∧
    (rendererCallerSend ns m args c).2 = () := by
  exact ⟨rfl, rfl, rfl⟩

/-- C7: a fire-and-forget message sent with positional arguments `args`
on `(ns, m)` is delivered to the `listen` callback registered for
`(ns, m)` with exactly `args` — same order, nothing added or removed, the
substrate event stripped. -/
theorem listen_argument_fidelity {α : Type} (ns m : String)
    (handler : List Val → α) (e : IpcRendererEvent) (args : List Val) :
    deliverToListener (clientListen ns m handler) e
      ⟨hostSendAddress ns m, args⟩ = some (handler args) ∧
    deliverToListener (clientListen ns m handler) e
      ⟨hostSendAddress ns m, [Val.num 50, Val.num 100]⟩ =
      some (handler [Val.num 50, Val.num 100]) := by
  constructor <;>
    simp [deliverToListener, clientListen, listenRaw, clientListenAddress,
      hostSendAddress, rendererCallerChannel, rendererHandlerChannel]

/-- C8: the callable `createMainCaller` yields for `(namespace, method)`
forwards its one input value to the substrate's native request/response
primitive at the plain channel `namespace.method` and returns that
primitive's future unchanged; instantiating the primitive with the wire
observer shows the transmitted payload is exactly `input` — no
correlation token. -/
theorem main_caller_forwards {F : Type} (ipcInvoke : String → Val → F)
    (ns m : String) (input : Val) :
    createMainCallerMethod ipcInvoke ns m input =
      ipcInvoke (ns ++ "." ++ m) input ∧
    createMainCallerMethod (fun ch v => (ch, v)) ns m input =
      (ns ++ "." ++ m, input) := by
  exact ⟨rfl, rfl⟩

/-- C9: `getOrCreate` obeys the single-flight state machine — from the
idle slot a call starts one creation and returns its shared promise;
every call made while that creation is in progress returns the same
shared promise without starting another creation; after the creation
succeeds every later call returns the cached instance without creating;
and after a failure the slot is back to idle, so the next call starts a
fresh creation. -/
theorem getOrCreate_single_flight (p q : Nat) (v : ServerInstance) :
    getOrCreate p ⟨none, none⟩ =
      (.awaitPromise p, ⟨none, some p⟩, true) ∧
    getOrCreate q ⟨none, some p⟩ =
      (.awaitPromise p, ⟨none, some p⟩, false) ∧
    creationSucceeded v ⟨none, some p⟩ = ⟨some v, none⟩ ∧
    getOrCreate q ⟨some v, none⟩ =
      (.cached v, ⟨some v, none⟩, false) ∧
    creationFailed ⟨none, some p⟩ = ⟨none, none⟩ ∧
    getOrCreate q ⟨none, none⟩ =
      (.awaitPromise q, ⟨none, some q⟩, true) := by
  exact ⟨rfl, rfl, rfl, rfl, rfl, rfl⟩

end IpcSpec
